import Mathlib

/-!
Verification development for the slide-deck-to-narrated-video pipeline in
`extract_slides.py`.

The file system is modelled as a `World`: four indexed artifact maps (slide
image, notes text, narration audio, per-slide clip), the final video, the
concatenation manifest, a logical clock supplying modification times, and a
log of external-collaborator invocations.  Each pipeline stage of the source
(`export_slides_as_png`, `extract_speaker_notes`, `generate_audio_from_notes`,
`create_individual_clips`, `concatenate_clips`) is embedded as a pure function
on `World`, faithful to the source's control flow: per-slide exception
handling, the hidden-slide fail-open check, the content-equality notes cache,
the audio/clip freshness gates, the `break` on `FileNotFoundError`, and the
re-raise inside the clip loop.
-/

/-- File contents, coded symbolically: a PNG records the original slide index
it was exported from, a text file records a notes-content code, a WAV records
the notes code it was synthesized from, an MP4 clip records the contents of
the image and audio it was composed from. -/
inductive Content where
  | png (orig : Nat)
  | txt (c : Nat)
  | wav (c : Nat)
  | mp4 (img aud : Content)
deriving DecidableEq, Repr

/-- A file on disk: its content and its modification time. -/
structure File where
  content : Content
  mtime : Nat
deriving DecidableEq, Repr

/-- One invocation of an external collaborator: a `slide.Export` call to the
slide-rendering application, a run of the TTS executable, a clip encode via
the media library, or the final ffmpeg concatenation. -/
inductive Call where
  | render (orig : Nat)
  | tts (idx : Nat)
  | encodeClip (idx : Nat)
  | ffmpegJoin
deriving DecidableEq, Repr

/-- The file-system state seen by the pipeline, plus the invocation log. -/
structure World where
  image : Nat → Option File
  text : Nat → Option File
  audio : Nat → Option File
  clip : Nat → Option File
  finalVideo : Option (List Nat)
  manifest : Option (List Nat)
  clock : Nat
  log : List Call

def World.empty : World :=
  { image := fun _ => none
    text := fun _ => none
    audio := fun _ => none
    clip := fun _ => none
    finalVideo := none
    manifest := none
    clock := 0
    log := [] }

def World.addLog (w : World) (e : Call) : World :=
  { w with log := w.log ++ [e] }

def World.writeImage (w : World) (k orig : Nat) : World :=
  { w with
    image := fun j => if j = k then some ⟨Content.png orig, w.clock⟩ else w.image j
    clock := w.clock + 1 }

def World.writeText (w : World) (k c : Nat) : World :=
  { w with
    text := fun j => if j = k then some ⟨Content.txt c, w.clock⟩ else w.text j
    clock := w.clock + 1 }

/-- The notes-content code currently stored in the notes file for slide `k`
(the TTS tool reads the text file it is given). -/
def World.textCode (w : World) (k : Nat) : Nat :=
  match w.text k with
  | some f =>
    match f.content with
    | Content.txt c => c
    | _ => 0
  | none => 0

def World.writeAudio (w : World) (k : Nat) : World :=
  { w with
    audio := fun j => if j = k then some ⟨Content.wav (w.textCode k), w.clock⟩ else w.audio j
    clock := w.clock + 1 }

def World.writeClip (w : World) (k : Nat) (ic ac : Content) : World :=
  { w with
    clip := fun j => if j = k then some ⟨Content.mp4 ic ac, w.clock⟩ else w.clip j
    clock := w.clock + 1 }

/-- One slide of the source deck as the pipeline observes it: the hidden flag
(`none` when the check itself raises, which the source treats as visible), the
speaker-notes content code, and whether the COM `Export` call succeeds. -/
structure Slide where
  hiddenFlag : Option Bool
  notes : Nat
  exportOk : Bool
deriving DecidableEq, Repr

/-- Fail-open visibility check: a slide is skipped only when the hidden flag
is determinable and true (source lines 100-105 and 159-165). -/
def isVisible (s : Slide) : Bool :=
  !(s.hiddenFlag.getD false)

/-- The visible slides of a deck paired with their 1-based original indices,
in deck order: the (j+1)-st element is the slide that receives artifact
number j+1. -/
def visibleWithOrig : List Slide → Nat → List (Nat × Slide)
  | [], _ => []
  | s :: rest, orig =>
    if isVisible s then (orig, s) :: visibleWithOrig rest (orig + 1)
    else visibleWithOrig rest (orig + 1)

/-- The visible slides of a deck in deck order. -/
def visibleSlides : List Slide → List Slide
  | [] => []
  | s :: rest => if isVisible s then s :: visibleSlides rest else visibleSlides rest

/-- Loop body of `export_slides_as_png` (source lines 93-116): iterate original
slide indices, skip hidden slides, increment the visible counter *before* the
export attempt, invoke the renderer, write the image only when export
succeeds, and continue past per-slide failures. -/
def exportLoop : List Slide → Nat → Nat → World → Nat × World
  | [], _, vis, w => (vis, w)
  | s :: rest, orig, vis, w =>
    if isVisible s then
      exportLoop rest (orig + 1) (vis + 1)
        (if s.exportOk then (w.addLog (Call.render orig)).writeImage (vis + 1) orig
         else w.addLog (Call.render orig))
    else
      exportLoop rest (orig + 1) vis w

/-- `export_slides_as_png`: returns the visible-slide count and the updated
file system. -/
def export_slides_as_png (deck : List Slide) (w : World) : Nat × World :=
  exportLoop deck 1 0 w

/-- Loop body of `extract_speaker_notes` (source lines 155-194): skip hidden
slides, renumber visible slides from 1, and write the notes file only when it
is absent or its content differs from the extracted text. -/
def notesLoop : List Slide → Nat → World → World
  | [], _, w => w
  | s :: rest, vis, w =>
    if isVisible s then
      notesLoop rest (vis + 1)
        (match w.text (vis + 1) with
         | some tf =>
           if tf.content = Content.txt s.notes then w else w.writeText (vis + 1) s.notes
         | none => w.writeText (vis + 1) s.notes)
    else
      notesLoop rest vis w

def extract_speaker_notes (deck : List Slide) (w : World) : World :=
  notesLoop deck 0 w

/-- Outcome of one attempted invocation of the external TTS executable. -/
inductive TtsOutcome where
  | success
  | nonZeroExit
  | toolMissing
deriving DecidableEq, Repr

/-- The synthesizer's freshness gate for slide `i` (source lines 221-228):
`some true` means skip (audio exists and is strictly newer than the notes
file), `some false` means the tool must be invoked, and `none` means the
`text_path.stat()` call raises `FileNotFoundError` (audio present, notes file
absent), which the source's `except FileNotFoundError` handler turns into a
loop `break`. -/
def freshSkip (w : World) (i : Nat) : Option Bool :=
  match w.audio i with
  | none => some false
  | some af =>
    match w.text i with
    | none => none
    | some tf => some (tf.mtime < af.mtime)

/-- Loop body of `generate_audio_from_notes` (source lines 213-256): consult
the freshness gate; on a gate `FileNotFoundError` or a missing tool, `break`;
on a non-zero tool exit, log and continue; on success, write the audio file
and continue. -/
def generateAudioLoop (tts : Nat → TtsOutcome) : List Nat → World → World
  | [], w => w
  | i :: rest, w =>
    match freshSkip w i with
    | none => w
    | some true => generateAudioLoop tts rest w
    | some false =>
      match tts i with
      | TtsOutcome.toolMissing => w
      | TtsOutcome.nonZeroExit => generateAudioLoop tts rest (w.addLog (Call.tts i))
      | TtsOutcome.success => generateAudioLoop tts rest ((w.addLog (Call.tts i)).writeAudio i)

def generate_audio_from_notes (tts : Nat → TtsOutcome) (n : Nat) (w : World) : World :=
  generateAudioLoop tts (List.range' 1 n) w

/-- What the clip loop does for slide `i` (source lines 287-334): reuse the
clip when it exists and is strictly newer than both the image and the audio;
rebuild it when it exists but is stale or does not exist, provided both
sources exist; raise (the loop body re-raises every exception) when a needed
stat or media-open hits a missing file. -/
inductive ClipAction where
  | reuse
  | build (ic ac : Content)
  | raiseErr
deriving DecidableEq, Repr

def clipAction (w : World) (i : Nat) : ClipAction :=
  match w.clip i, w.image i, w.audio i with
  | some cf, some imf, some af =>
    if imf.mtime < cf.mtime && af.mtime < cf.mtime then ClipAction.reuse
    else ClipAction.build imf.content af.content
  | some _, _, _ => ClipAction.raiseErr
  | none, some imf, some af => ClipAction.build imf.content af.content
  | none, _, _ => ClipAction.raiseErr

/-- Loop of `create_individual_clips`: accumulates clip indices; a per-slide
failure re-raises, aborting the whole stage (`none`). -/
def createClipsLoop : List Nat → World → List Nat → World × Option (List Nat)
  | [], w, acc => (w, some acc.reverse)
  | i :: rest, w, acc =>
    match clipAction w i with
    | ClipAction.reuse => createClipsLoop rest w (i :: acc)
    | ClipAction.build ic ac =>
      createClipsLoop rest ((w.addLog (Call.encodeClip i)).writeClip i ic ac) (i :: acc)
    | ClipAction.raiseErr => (w, none)

def create_individual_clips (n : Nat) (w : World) : World × Option (List Nat) :=
  createClipsLoop (List.range' 1 n) w []

/-- `concatenate_clips` (source lines 344-389): write the manifest, run
ffmpeg, delete the manifest, and only then inspect the return code; the
second component is the success flag (`false` means the `RuntimeError` was
raised). -/
def concatenate_clips (rc : Nat) (clips : List Nat) (w : World) : World × Bool :=
  let w1 := { w with manifest := some clips }
  let w2 := w1.addLog Call.ffmpegJoin
  let w3 := if rc = 0 then { w2 with finalVideo := some clips } else w2
  ({ w3 with manifest := none }, rc == 0)

/-- The whole run after input validation (`main`, source lines 442-463):
stages in order; an exception escaping a stage makes `main` exit 1, otherwise
exit 0. Returns the final world and the process exit code. -/
def runPipeline (deck : List Slide) (tts : Nat → TtsOutcome) (rc : Nat) (w : World) :
    World × Nat :=
  let step1 := export_slides_as_png deck w
  let w2 := extract_speaker_notes deck step1.2
  let w3 := generate_audio_from_notes tts step1.1 w2
  match create_individual_clips step1.1 w3 with
  | (w4, none) => (w4, 1)
  | (w4, some clips) =>
    let step5 := concatenate_clips rc clips w4
    (step5.1, if step5.2 then 0 else 1)

/-! ## Clip composition model (source lines 306-314)

The per-slide clip is assembled with the media library exactly as the source
does: open the audio, delay it by 1.0, and hold the image for
`audio.duration + 1.0`. Durations are rationals. -/

structure AudioClip where
  start : Rat
  duration : Rat
deriving DecidableEq, Repr

def AudioClip.with_start (a : AudioClip) (t : Rat) : AudioClip :=
  { a with start := t }

structure ImageClip where
  duration : Rat
deriving DecidableEq, Repr

def ImageClip.with_duration (c : ImageClip) (d : Rat) : ImageClip :=
  { c with duration := d }

structure VideoClip where
  image : ImageClip
  audio : AudioClip
deriving DecidableEq, Repr

/-- Source lines 306-314: `audio.with_start(1.0)`,
`ImageClip(...).with_duration(audio.duration + 1.0)`, `image.with_audio`. -/
def composeSlideClip (audioDuration : Rat) : VideoClip :=
  let audio : AudioClip := { start := 0, duration := audioDuration }
  let audio_delayed := audio.with_start 1
  let image := ImageClip.with_duration { duration := 0 } (audio.duration + 1)
  { image := image, audio := audio_delayed }

/-- The duration of the composed clip is the image's display duration (the
video track). -/
def VideoClip.totalDuration (v : VideoClip) : Rat :=
  v.image.duration

/-! ## Concrete scenarios used in the claim analyses -/

def ttsAllSuccess : Nat → TtsOutcome := fun _ => TtsOutcome.success

def ttsAllMissing : Nat → TtsOutcome := fun _ => TtsOutcome.toolMissing

/-- Three visible slides, synthesis of slide 2 fails with a non-zero exit. -/
def c1deck : List Slide :=
  [⟨some false, 10, true⟩, ⟨some false, 20, true⟩, ⟨some false, 30, true⟩]

def c1tts : Nat → TtsOutcome :=
  fun i => if i = 2 then TtsOutcome.nonZeroExit else TtsOutcome.success

def c1run : World × Nat := runPipeline c1deck c1tts 0 World.empty

/-- One visible slide, everything succeeds; the pipeline is run twice. -/
def c2deck : List Slide := [⟨some false, 5, true⟩]

def c2run1 : World × Nat := runPipeline c2deck ttsAllSuccess 0 World.empty

/-- The world after the first run, with the invocation log cleared so the
second run's log records exactly the second run's external invocations. -/
def c2mid : World := { c2run1.1 with log := [] }

def c2run2 : World × Nat := runPipeline c2deck ttsAllSuccess 0 c2mid

/-- One visible slide whose notes file already holds the extracted text. -/
def c3deck : List Slide := [⟨some false, 4, true⟩]

def c3w : World :=
  { World.empty with
    text := fun j => if j = 1 then some ⟨Content.txt 4, 7⟩ else none
    clock := 8 }

/-- Notes files for slides 1 and 2; slide 1 has fresh audio, slide 2 has
no audio. -/
def c4w : World :=
  { World.empty with
    text := fun j => if j = 1 ∨ j = 2 then some ⟨Content.txt 0, 5⟩ else none
    audio := fun j => if j = 1 then some ⟨Content.wav 0, 9⟩ else none
    clock := 10 }

/-- Deck shaped [visible, hidden, visible, visible]; the last slide's hidden
flag is undeterminable, which the source treats as visible. -/
def c6deck : List Slide :=
  [⟨some false, 11, true⟩, ⟨some true, 22, true⟩, ⟨some false, 33, true⟩, ⟨none, 44, true⟩]

/-- One visible slide whose notes file exists and whose audio file exists but
is stale (older than the notes), with the TTS executable absent. -/
def c7deck : List Slide := [⟨some false, 7, true⟩]

def c7w : World :=
  { World.empty with
    text := fun j => if j = 1 then some ⟨Content.txt 7, 10⟩ else none
    audio := fun j => if j = 1 then some ⟨Content.wav 7, 5⟩ else none
    clock := 11 }

def c7run : World × Nat := runPipeline c7deck ttsAllMissing 0 c7w

/-- Slide 1 has an audio file but no notes file. -/
def c8w : World :=
  { World.empty with
    audio := fun j => if j = 1 then some ⟨Content.wav 0, 3⟩ else none
    clock := 4 }

/-- Three visible slides; the export of slide 2 fails. -/
def c9deck : List Slide :=
  [⟨some false, 1, true⟩, ⟨some false, 2, false⟩, ⟨some false, 3, true⟩]

/-! ## Lemmas about the image-export stage -/

theorem exportLoop_image_low (slides : List Slide) (orig vis : Nat) (w : World) (k : Nat)
    (hk : k ≤ vis) : ((exportLoop slides orig vis w).2).image k = w.image k := by
  induction slides generalizing orig vis w with
  | nil => rfl
  | cons s rest ih =>
    simp only [exportLoop]
    by_cases hv : isVisible s
    · rw [if_pos hv, ih (orig + 1) (vis + 1) _ (Nat.le_succ_of_le hk)]
      have hne : k ≠ vis + 1 := by omega
      by_cases he : s.exportOk
      · simp [he, World.writeImage, World.addLog, hne]
      · simp [he, World.addLog]
    · rw [if_neg hv, ih (orig + 1) vis _ hk]

theorem exportLoop_image_high (slides : List Slide) (orig vis : Nat) (w : World) (k : Nat)
    (hk : vis + (visibleWithOrig slides orig).length < k) :
    ((exportLoop slides orig vis w).2).image k = w.image k := by
  induction slides generalizing orig vis w with
  | nil => rfl
  | cons s rest ih =>
    simp only [exportLoop]
    by_cases hv : isVisible s
    · simp only [visibleWithOrig, if_pos hv, List.length_cons] at hk
      rw [if_pos hv, ih (orig + 1) (vis + 1) _ (by omega)]
      have hne : k ≠ vis + 1 := by omega
      by_cases he : s.exportOk
      · simp [he, World.writeImage, World.addLog, hne]
      · simp [he, World.addLog]
    · simp only [visibleWithOrig, if_neg hv] at hk
      rw [if_neg hv, ih (orig + 1) vis _ hk]

theorem exportLoop_count (slides : List Slide) (orig vis : Nat) (w : World) :
    (exportLoop slides orig vis w).1 = vis + (visibleWithOrig slides orig).length := by
  induction slides generalizing orig vis w with
  | nil => simp [exportLoop, visibleWithOrig]
  | cons s rest ih =>
    simp only [exportLoop, visibleWithOrig]
    by_cases hv : isVisible s
    · rw [if_pos hv, if_pos hv, ih]
      simp [List.length_cons]
      omega
    · rw [if_neg hv, if_neg hv, ih]

theorem exportLoop_image_at (slides : List Slide) (orig vis : Nat) (w : World)
    (himg : ∀ k, vis < k → w.image k = none) (j : Nat) (p : Nat × Slide)
    (hj : (visibleWithOrig slides orig).get? j = some p) :
    (p.2.exportOk = true →
      ∃ m, ((exportLoop slides orig vis w).2).image (vis + j + 1) = some ⟨Content.png p.1, m⟩)
    ∧ (p.2.exportOk = false → ((exportLoop slides orig vis w).2).image (vis + j + 1) = none) := by
  induction slides generalizing orig vis w j with
  | nil => simp [visibleWithOrig] at hj
  | cons s rest ih =>
    by_cases hv : isVisible s
    · simp only [visibleWithOrig, if_pos hv] at hj
      simp only [exportLoop, if_pos hv]
      cases j with
      | zero =>
        simp only [List.get?] at hj
        injection hj with hj
        subst hj
        constructor
        · intro he
          replace he : s.exportOk = true := he
          refine ⟨(w.addLog (Call.render orig)).clock, ?_⟩
          rw [show vis + 0 + 1 = vis + 1 from by omega]
          rw [exportLoop_image_low rest (orig + 1) (vis + 1) _ (vis + 1) (Nat.le_refl _)]
          simp [he, World.writeImage]
        · intro he
          replace he : s.exportOk = false := he
          rw [show vis + 0 + 1 = vis + 1 from by omega]
          rw [exportLoop_image_low rest (orig + 1) (vis + 1) _ (vis + 1) (Nat.le_refl _)]
          simp [he, World.addLog]
          exact himg (vis + 1) (by omega)
      | succ j' =>
        simp only [List.get?] at hj
        have harr : vis + (j' + 1) + 1 = (vis + 1) + j' + 1 := by omega
        rw [harr]
        apply ih (orig + 1) (vis + 1) _ ?_ j' hj
        intro k hk
        have hne : k ≠ vis + 1 := by omega
        by_cases he : s.exportOk
        · simp [he, World.writeImage, World.addLog, hne]
          exact himg k (by omega)
        · simp [he, World.addLog]
          exact himg k (by omega)
    · simp only [visibleWithOrig, if_neg hv] at hj
      simp only [exportLoop, if_neg hv]
      exact ih orig.succ vis w himg j hj

theorem exportLoop_log_mono (slides : List Slide) (orig vis : Nat) (w : World) (e : Call)
    (he : e ∈ w.log) : e ∈ ((exportLoop slides orig vis w).2).log := by
  induction slides generalizing orig vis w with
  | nil => exact he
  | cons s rest ih =>
    simp only [exportLoop]
    by_cases hv : isVisible s
    · rw [if_pos hv]
      apply ih
      by_cases hex : s.exportOk
      · simp [hex, World.writeImage, World.addLog, List.mem_append]
        exact Or.inl he
      · simp [hex, World.addLog, List.mem_append]
        exact Or.inl he
    · rw [if_neg hv]
      exact ih _ _ _ he

theorem exportLoop_render_mem (slides : List Slide) (orig vis : Nat) (w : World) (j : Nat)
    (p : Nat × Slide) (hj : (visibleWithOrig slides orig).get? j = some p) :
    Call.render p.1 ∈ ((exportLoop slides orig vis w).2).log := by
  induction slides generalizing orig vis w j with
  | nil => simp [visibleWithOrig] at hj
  | cons s rest ih =>
    by_cases hv : isVisible s
    · simp only [visibleWithOrig, if_pos hv] at hj
      simp only [exportLoop, if_pos hv]
      cases j with
      | zero =>
        simp only [List.get?] at hj
        injection hj with hj
        subst hj
        apply exportLoop_log_mono
        by_cases hex : s.exportOk
        · simp [hex, World.writeImage, World.addLog, List.mem_append]
        · simp [hex, World.addLog, List.mem_append]
      | succ j' =>
        simp only [List.get?] at hj
        exact ih (orig + 1) (vis + 1) _ j' hj
    · simp only [visibleWithOrig, if_neg hv] at hj
      simp only [exportLoop, if_neg hv]
      exact ih (orig + 1) vis w j hj

/-! ## Lemmas about the notes-extraction stage -/

theorem notesLoop_text_low (slides : List Slide) (vis : Nat) (w : World) (k : Nat)
    (hk : k ≤ vis) : (notesLoop slides vis w).text k = w.text k := by
  induction slides generalizing vis w with
  | nil => rfl
  | cons s rest ih =>
    simp only [notesLoop]
    by_cases hv : isVisible s
    · rw [if_pos hv]
      have hne : k ≠ vis + 1 := by omega
      rcases h : w.text (vis + 1) with _ | tf
      · simp only [h]
        rw [ih (vis + 1) _ (by omega)]
        simp [World.writeText, hne]
      · simp only [h]
        by_cases hc : tf.content = Content.txt s.notes
        · rw [if_pos hc, ih (vis + 1) _ (by omega)]
        · rw [if_neg hc, ih (vis + 1) _ (by omega)]
          simp [World.writeText, hne]
    · rw [if_neg hv, ih vis _ hk]

theorem notesLoop_text_high (slides : List Slide) (vis : Nat) (w : World) (k : Nat)
    (hk : vis + (visibleSlides slides).length < k) :
    (notesLoop slides vis w).text k = w.text k := by
  induction slides generalizing vis w with
  | nil => rfl
  | cons s rest ih =>
    simp only [notesLoop]
    by_cases hv : isVisible s
    · simp only [visibleSlides, if_pos hv, List.length_cons] at hk
      rw [if_pos hv]
      have hne : k ≠ vis + 1 := by omega
      rcases h : w.text (vis + 1) with _ | tf
      · simp only [h]
        rw [ih (vis + 1) _ (by omega)]
        simp [World.writeText, hne]
      · simp only [h]
        by_cases hc : tf.content = Content.txt s.notes
        · rw [if_pos hc, ih (vis + 1) _ (by omega)]
        · rw [if_neg hc, ih (vis + 1) _ (by omega)]
          simp [World.writeText, hne]
    · simp only [visibleSlides, if_neg hv] at hk
      rw [if_neg hv, ih vis _ hk]

theorem notesLoop_text_unchanged (slides : List Slide) (vis : Nat) (w : World) (j : Nat)
    (s : Slide) (hj : (visibleSlides slides).get? j = some s) (tf : File)
    (ht : w.text (vis + j + 1) = some tf) (hc : tf.content = Content.txt s.notes) :
    (notesLoop slides vis w).text (vis + j + 1) = w.text (vis + j + 1) := by
  induction slides generalizing vis w j with
  | nil => simp [visibleSlides] at hj
  | cons s0 rest ih =>
    by_cases hv : isVisible s0
    · simp only [visibleSlides, if_pos hv] at hj
      simp only [notesLoop, if_pos hv]
      cases j with
      | zero =>
        simp only [List.get?] at hj
        injection hj with hj
        subst hj
        rw [show vis + 0 + 1 = vis + 1 from by omega] at ht ⊢
        simp only [ht, if_pos hc]
        rw [notesLoop_text_low rest (vis + 1) w (vis + 1) (Nat.le_refl _)]
        exact ht
      | succ j' =>
        simp only [List.get?] at hj
        have harr : vis + (j' + 1) + 1 = (vis + 1) + j' + 1 := by omega
        rw [harr] at ht ⊢
        have hne : (vis + 1) + j' + 1 ≠ vis + 1 := by omega
        rcases h : w.text (vis + 1) with _ | tf0
        · simp only [h]
          have hagree : (w.writeText (vis + 1) s0.notes).text ((vis + 1) + j' + 1) =
              w.text ((vis + 1) + j' + 1) := by
            simp [World.writeText, hne]
          rw [← hagree] at ht ⊢
          exact ih (vis + 1) _ j' hj ht
        · simp only [h]
          by_cases hc0 : tf0.content = Content.txt s0.notes
          · rw [if_pos hc0]
            exact ih (vis + 1) w j' hj ht
          · rw [if_neg hc0]
            have hagree : (w.writeText (vis + 1) s0.notes).text ((vis + 1) + j' + 1) =
                w.text ((vis + 1) + j' + 1) := by
              simp [World.writeText, hne]
            rw [← hagree] at ht ⊢
            exact ih (vis + 1) _ j' hj ht
    · simp only [visibleSlides, if_neg hv] at hj
      simp only [notesLoop, if_neg hv]
      exact ih vis w j hj ht

theorem notesLoop_text_write (slides : List Slide) (vis : Nat) (w : World) (j : Nat)
    (s : Slide) (hj : (visibleSlides slides).get? j = some s)
    (ht : w.text (vis + j + 1) = none ∨
      ∃ tf, w.text (vis + j + 1) = some tf ∧ tf.content ≠ Content.txt s.notes) :
    ∃ m, (notesLoop slides vis w).text (vis + j + 1) = some ⟨Content.txt s.notes, m⟩ := by
  induction slides generalizing vis w j with
  | nil => simp [visibleSlides] at hj
  | cons s0 rest ih =>
    by_cases hv : isVisible s0
    · simp only [visibleSlides, if_pos hv] at hj
      simp only [notesLoop, if_pos hv]
      cases j with
      | zero =>
        simp only [List.get?] at hj
        injection hj with hj
        subst hj
        rw [show vis + 0 + 1 = vis + 1 from by omega] at ht ⊢
        refine ⟨w.clock, ?_⟩
        rcases ht with ht | ⟨tf, ht, hcne⟩
        · simp only [ht]
          rw [notesLoop_text_low rest (vis + 1) _ (vis + 1) (Nat.le_refl _)]
          simp [World.writeText]
        · simp only [ht, if_neg hcne]
          rw [notesLoop_text_low rest (vis + 1) _ (vis + 1) (Nat.le_refl _)]
          simp [World.writeText]
      | succ j' =>
        simp only [List.get?] at hj
        have harr : vis + (j' + 1) + 1 = (vis + 1) + j' + 1 := by omega
        rw [harr] at ht ⊢
        have hne : (vis + 1) + j' + 1 ≠ vis + 1 := by omega
        rcases h : w.text (vis + 1) with _ | tf0
        · simp only [h]
          apply ih (vis + 1) _ j' hj
          simpa [World.writeText, hne] using ht
        · simp only [h]
          by_cases hc0 : tf0.content = Content.txt s0.notes
          · rw [if_pos hc0]
            exact ih (vis + 1) w j' hj ht
          · rw [if_neg hc0]
            apply ih (vis + 1) _ j' hj
            simpa [World.writeText, hne] using ht
    · simp only [visibleSlides, if_neg hv] at hj
      simp only [notesLoop, if_neg hv]
      exact ih vis w j hj ht

/-! ## Lemmas about the narration-synthesis stage -/

theorem generateAudioLoop_text (tts : Nat → TtsOutcome) (l : List Nat) (w : World) (j : Nat) :
    (generateAudioLoop tts l w).text j = w.text j := by
  induction l generalizing w with
  | nil => rfl
  | cons i rest ih =>
    simp only [generateAudioLoop]
    rcases hf : freshSkip w i with _ | b
    · rfl
    · cases b with
      | true => rw [ih]
      | false =>
        cases ht : tts i with
        | success => rw [ih]; rfl
        | nonZeroExit => rw [ih]; exact rfl
        | toolMissing => rfl

theorem generateAudioLoop_audio_off (tts : Nat → TtsOutcome) (l : List Nat) (w : World)
    (j : Nat) (hj : j ∉ l) : (generateAudioLoop tts l w).audio j = w.audio j := by
  induction l generalizing w with
  | nil => rfl
  | cons i rest ih =>
    have hji : j ≠ i := fun h => hj (h ▸ List.mem_cons_self i rest)
    have hjr : j ∉ rest := fun h => hj (List.mem_cons_of_mem i h)
    simp only [generateAudioLoop]
    rcases hf : freshSkip w i with _ | b
    · rfl
    · cases b with
      | true => rw [ih _ hjr]
      | false =>
        cases ht : tts i with
        | success =>
          rw [ih _ hjr]
          simp [World.writeAudio, World.addLog, hji]
        | nonZeroExit => rw [ih _ hjr]; exact rfl
        | toolMissing => rfl

theorem generateAudioLoop_log_mono (tts : Nat → TtsOutcome) (l : List Nat) (w : World)
    (e : Call) (he : e ∈ w.log) : e ∈ (generateAudioLoop tts l w).log := by
  induction l generalizing w with
  | nil => exact he
  | cons i rest ih =>
    simp only [generateAudioLoop]
    rcases hf : freshSkip w i with _ | b
    · exact he
    · cases b with
      | true => exact ih _ he
      | false =>
        cases ht : tts i with
        | success =>
          apply ih
          simp [World.writeAudio, World.addLog, List.mem_append]
          exact Or.inl he
        | nonZeroExit =>
          apply ih
          simp [World.addLog, List.mem_append]
          exact Or.inl he
        | toolMissing => exact he

theorem generateAudioLoop_log_off (tts : Nat → TtsOutcome) (l : List Nat) (w : World)
    (i : Nat) (hi : i ∉ l) :
    (Call.tts i ∈ (generateAudioLoop tts l w).log ↔ Call.tts i ∈ w.log) := by
  induction l generalizing w with
  | nil => exact Iff.rfl
  | cons a rest ih =>
    have hia : i ≠ a := fun h => hi (h ▸ List.mem_cons_self a rest)
    have hir : i ∉ rest := fun h => hi (List.mem_cons_of_mem a h)
    simp only [generateAudioLoop]
    rcases hf : freshSkip w a with _ | b
    · exact Iff.rfl
    · cases b with
      | true => exact ih _ hir
      | false =>
        cases ht : tts a with
        | success =>
          rw [ih _ hir]
          simp [World.writeAudio, World.addLog, List.mem_append, hia]
        | nonZeroExit =>
          rw [ih _ hir]
          simp [World.addLog, List.mem_append, hia]
        | toolMissing => exact Iff.rfl

theorem generateAudioLoop_invoked_iff (tts : Nat → TtsOutcome) (l : List Nat) (w : World)
    (hnd : l.Nodup) (hok : ∀ j ∈ l, (w.text j).isSome ∧ tts j ≠ TtsOutcome.toolMissing)
    (i : Nat) (hi : i ∈ l) (hlog : Call.tts i ∉ w.log) :
    (Call.tts i ∈ (generateAudioLoop tts l w).log ↔ freshSkip w i ≠ some true) := by
  induction l generalizing w with
  | nil => cases hi
  | cons a rest ih =>
    have hnd' : rest.Nodup := (List.nodup_cons.mp hnd).2
    have hoka := hok a (List.mem_cons_self a rest)
    have hokr : ∀ j ∈ rest, (w.text j).isSome ∧ tts j ≠ TtsOutcome.toolMissing :=
      fun j hj => hok j (List.mem_cons_of_mem a hj)
    simp only [generateAudioLoop]
    rcases hf : freshSkip w a with _ | b
    · exfalso
      unfold freshSkip at hf
      rcases ha : w.audio a with _ | af
      · simp [ha] at hf
      · rcases hta : w.text a with _ | tf
        · rw [hta] at hoka
          simp at hoka
        · simp [ha, hta] at hf
    · rcases List.mem_cons.mp hi with hieq | hir
      · subst hieq
        cases b with
        | true =>
          have hna : i ∉ rest := (List.nodup_cons.mp hnd).1
          refine iff_of_false (fun h => hlog ?_) (by simp [hf])
          exact (generateAudioLoop_log_off tts rest w i hna).mp h
        | false =>
          refine iff_of_true ?_ (by simp [hf])
          cases ht : tts i with
          | success =>
            apply generateAudioLoop_log_mono
            simp [World.writeAudio, World.addLog, List.mem_append]
          | nonZeroExit =>
            apply generateAudioLoop_log_mono
            simp [World.addLog, List.mem_append]
          | toolMissing => exact absurd ht hoka.2
      · have hia : i ≠ a := fun h => (List.nodup_cons.mp hnd).1 (h ▸ hir)
        cases b with
        | true => exact ih w hnd' hokr hir hlog
        | false =>
          cases ht : tts a with
          | success =>
            have haud : ((w.addLog (Call.tts a)).writeAudio a).audio i = w.audio i := by
              simp [World.writeAudio, World.addLog, hia]
            have hfs : freshSkip ((w.addLog (Call.tts a)).writeAudio a) i = freshSkip w i := by
              unfold freshSkip
              rw [haud]
              exact rfl
            have hok' : ∀ j ∈ rest,
                ((((w.addLog (Call.tts a)).writeAudio a)).text j).isSome ∧
                  tts j ≠ TtsOutcome.toolMissing := hokr
            have hlog' : Call.tts i ∉ (((w.addLog (Call.tts a)).writeAudio a)).log := by
              simp [World.writeAudio, World.addLog, List.mem_append, hia]
              exact hlog
            have := ih ((w.addLog (Call.tts a)).writeAudio a) hnd' hok' hir hlog'
            rw [hfs] at this
            exact this
          | nonZeroExit =>
            have hok' : ∀ j ∈ rest,
                ((w.addLog (Call.tts a)).text j).isSome ∧ tts j ≠ TtsOutcome.toolMissing := hokr
            have hlog' : Call.tts i ∉ (w.addLog (Call.tts a)).log := by
              simp [World.addLog, List.mem_append, hia]
              exact hlog
            exact ih (w.addLog (Call.tts a)) hnd' hok' hir hlog'
          | toolMissing => exact absurd ht hoka.2

theorem generateAudioLoop_toolMissing (tts : Nat → TtsOutcome) (l : List Nat) (w : World)
    (h : ∀ i, tts i = TtsOutcome.toolMissing) :
    (generateAudioLoop tts l w).log = w.log ∧
      ∀ j, (generateAudioLoop tts l w).audio j = w.audio j := by
  induction l generalizing w with
  | nil => exact ⟨rfl, fun _ => rfl⟩
  | cons i rest ih =>
    simp only [generateAudioLoop]
    rcases hf : freshSkip w i with _ | b
    · exact ⟨rfl, fun _ => rfl⟩
    · cases b with
      | true => exact ih w
      | false =>
        rw [h i]
        exact ⟨rfl, fun _ => rfl⟩

/-! ## Lemmas about the clip-composition stage -/

theorem clipAction_no_audio (w : World) (i : Nat) (ha : w.audio i = none) :
    clipAction w i = ClipAction.raiseErr := by
  unfold clipAction
  rcases hc : w.clip i with _ | cf <;> rcases him : w.image i with _ | imf <;> simp [ha]

theorem createClipsLoop_err (rest : List Nat) (w : World) (acc : List Nat) (i : Nat)
    (h : clipAction w i = ClipAction.raiseErr) :
    createClipsLoop (i :: rest) w acc = (w, none) := by
  simp only [createClipsLoop, h]

/-! ## Claim C1 — gap tolerance of per-slide synthesis failure -/

/-- Claim C1, counterexample: three visible slides, slide 2's synthesis fails
with a non-zero exit while 1 and 3 succeed, starting from an empty output
folder.  Contrary to the claim, the process exits 1 (not 0) and no final
video is produced at all. -/
theorem C1_counterexample : c1run.2 ≠ 0 ∧ c1run.1.finalVideo = none := by decide

/-- Claim C1 (amended): a per-slide synthesis failure (tool exits non-zero)
does not abort the synthesis stage — the loop records the invocation and
continues with the remaining slides — but the failure escalates downstream:
the clip composer re-raises on the first slide whose audio file is missing,
so the run aborts with exit code 1 and no final video is produced, instead
of a gap-tolerant video of the successful slides with exit code 0. -/
theorem C1_amended_theorem :
    (∀ (tts : Nat → TtsOutcome) (i : Nat) (rest : List Nat) (w : World),
        w.audio i = none → tts i = TtsOutcome.nonZeroExit →
        generateAudioLoop tts (i :: rest) w =
          generateAudioLoop tts rest (w.addLog (Call.tts i)))
    ∧ (∀ (i : Nat) (rest : List Nat) (w : World) (acc : List Nat),
        w.audio i = none → createClipsLoop (i :: rest) w acc = (w, none))
    ∧ (c1run.2 = 1 ∧ c1run.1.finalVideo = none ∧ (c1run.1.audio 3).isSome
        ∧ c1run.1.audio 2 = none ∧ Call.tts 3 ∈ c1run.1.log) := by
  refine ⟨?_, ?_, by decide⟩
  · intro tts i rest w ha ht
    simp only [generateAudioLoop]
    rw [show freshSkip w i = some false from by simp [freshSkip, ha], ht]
  · intro i rest w acc ha
    exact createClipsLoop_err rest w acc i (clipAction_no_audio w i ha)

/-- Witness for C1: the amended theorem applied at slide 2 of the concrete
scenario. -/
theorem C1_witness :
    (World.empty.audio 2 = none ∧ c1tts 2 = TtsOutcome.nonZeroExit)
    ∧ generateAudioLoop c1tts [2, 3] World.empty =
        generateAudioLoop c1tts [3] (World.empty.addLog (Call.tts 2)) :=
  ⟨⟨rfl, by decide⟩, C1_amended_theorem.1 c1tts 2 [3] World.empty rfl (by decide)⟩

/-! ## Claim C2 — idempotence of a second run -/

/-- Claim C2, counterexample: one visible slide, everything succeeds, run the
pipeline twice on the unchanged deck.  The second run's invocation log is not
empty: the slide renderer is invoked again (and in consequence the clip is
re-encoded and the join re-run). -/
theorem C2_counterexample : c2run2.1.log ≠ [] ∧ Call.render 1 ∈ c2run2.1.log := by decide

/-- Claim C2 (amended): the render stage has no freshness gate — on every
run, including a second run on an unchanged deck, the slide renderer is
invoked for every visible slide.  On the second run of the concrete scenario
the notes file is not rewritten (content-equality cache) and the TTS tool is
not re-invoked (audio freshness gate hits), but the renderer runs again,
which refreshes the image mtime, defeats the clip freshness gate, re-encodes
the clip, and the join is re-run; both runs still exit 0. -/
theorem C2_amended_theorem :
    (∀ (deck : List Slide) (w : World) (j : Nat) (p : Nat × Slide),
        (visibleWithOrig deck 1).get? j = some p →
        Call.render p.1 ∈ ((export_slides_as_png deck w).2).log)
    ∧ (c2run2.1.log = [Call.render 1, Call.encodeClip 1, Call.ffmpegJoin]
        ∧ c2run2.1.text 1 = c2run1.1.text 1
        ∧ Call.tts 1 ∉ c2run2.1.log
        ∧ c2run1.2 = 0 ∧ c2run2.2 = 0) := by
  refine ⟨?_, by decide⟩
  intro deck w j p hj
  exact exportLoop_render_mem deck 1 0 w j p hj

/-- Witness for C2: the renderer-invocation part applied to the concrete
one-slide deck. -/
theorem C2_witness :
    (visibleWithOrig c2deck 1).get? 0 = some (1, ⟨some false, 5, true⟩)
    ∧ Call.render 1 ∈ ((export_slides_as_png c2deck World.empty).2).log :=
  ⟨by decide,
    C2_amended_theorem.1 c2deck World.empty 0 (1, ⟨some false, 5, true⟩) (by decide)⟩

/-! ## Claim C3 — content-equality caching of notes files -/

/-- Claim C3 (confirmed): for the slide at visible position j (artifact index
j+1), if the notes file already exists with content equal to the extracted
notes text, the extractor performs no write — content and modification time
are untouched; if the file is absent or its content differs, the file is
written with the extracted text. -/
theorem C3_theorem (deck : List Slide) (w : World) (j : Nat) (s : Slide)
    (hj : (visibleSlides deck).get? j = some s) :
    (∀ tf, w.text (j + 1) = some tf → tf.content = Content.txt s.notes →
      (extract_speaker_notes deck w).text (j + 1) = w.text (j + 1))
    ∧ (w.text (j + 1) = none →
      ∃ m, (extract_speaker_notes deck w).text (j + 1) = some ⟨Content.txt s.notes, m⟩)
    ∧ (∀ tf, w.text (j + 1) = some tf → tf.content ≠ Content.txt s.notes →
      ∃ m, (extract_speaker_notes deck w).text (j + 1) = some ⟨Content.txt s.notes, m⟩) := by
  have h0 : (0 : Nat) + j + 1 = j + 1 := by omega
  refine ⟨?_, ?_, ?_⟩
  · intro tf ht hc
    have := notesLoop_text_unchanged deck 0 w j s hj tf (by rw [h0]; exact ht) hc
    rw [h0] at this
    exact this
  · intro ht
    have := notesLoop_text_write deck 0 w j s hj (Or.inl (by rw [h0]; exact ht))
    rw [h0] at this
    exact this
  · intro tf ht hc
    have := notesLoop_text_write deck 0 w j s hj (Or.inr ⟨tf, by rw [h0]; exact ht, hc⟩)
    rw [h0] at this
    exact this

/-- Witness for C3: a one-slide deck whose notes file already holds the
extracted text (content code 4, mtime 7); the file is untouched. -/
theorem C3_witness :
    ((visibleSlides c3deck).get? 0 = some ⟨some false, 4, true⟩
      ∧ c3w.text 1 = some ⟨Content.txt 4, 7⟩)
    ∧ (extract_speaker_notes c3deck c3w).text 1 = c3w.text 1 :=
  ⟨⟨by decide, by decide⟩,
    (C3_theorem c3deck c3w 0 ⟨some false, 4, true⟩ (by decide)).1
      ⟨Content.txt 4, 7⟩ (by decide) rfl⟩

/-! ## Claim C4 — the synthesizer's freshness gate -/

/-- Claim C4 (confirmed, under the proviso that every notes file exists and
the TTS executable is present): slide i's TTS invocation is skipped iff an
audio file exists whose modification time is strictly later than the notes
file's; in every other case (audio absent, or audio mtime ≤ notes mtime) the
tool is invoked. -/
theorem C4_theorem (tts : Nat → TtsOutcome) (n : Nat) (w : World) (i : Nat)
    (hok : ∀ j ∈ List.range' 1 n, (w.text j).isSome ∧ tts j ≠ TtsOutcome.toolMissing)
    (hi : i ∈ List.range' 1 n) (hlog : Call.tts i ∉ w.log) :
    (Call.tts i ∈ (generate_audio_from_notes tts n w).log ↔
      ¬ ∃ af tf, w.audio i = some af ∧ w.text i = some tf ∧ tf.mtime < af.mtime) := by
  have hnd : (List.range' 1 n).Nodup := List.nodup_range' 1 n
  have hiff := generateAudioLoop_invoked_iff tts (List.range' 1 n) w hnd hok i hi hlog
  simp only [generate_audio_from_notes]
  rw [hiff]
  have hts : (w.text i).isSome := (hok i hi).1
  rcases ha : w.audio i with _ | af
  · constructor
    · intro _
      rintro ⟨af, tf, haf, _⟩
      exact Option.noConfusion haf
    · intro _
      simp [freshSkip, ha]
  · rcases htx : w.text i with _ | tf
    · rw [htx] at hts
      simp at hts
    · constructor
      · intro hne
        rintro ⟨af', tf', haf, htf, hlt⟩
        injection haf with haf
        injection htf with htf
        subst haf
        subst htf
        apply hne
        simp [freshSkip, ha, htx]
        exact hlt
      · intro hno
        simp [freshSkip, ha, htx]
        exact Nat.not_lt.mp (fun hlt => hno ⟨af, tf, rfl, rfl, hlt⟩)

/-- Witness for C4: slide 2 of the concrete scenario has notes but no audio,
so the gate does not fire and the tool is invoked. -/
theorem C4_witness :
    ((∀ j ∈ List.range' 1 2, (c4w.text j).isSome ∧ ttsAllSuccess j ≠ TtsOutcome.toolMissing)
      ∧ 2 ∈ List.range' 1 2 ∧ Call.tts 2 ∉ c4w.log)
    ∧ (Call.tts 2 ∈ (generate_audio_from_notes ttsAllSuccess 2 c4w).log ↔
        ¬ ∃ af tf, c4w.audio 2 = some af ∧ c4w.text 2 = some tf ∧ tf.mtime < af.mtime) :=
  ⟨⟨by decide, by decide, by decide⟩,
    C4_theorem ttsAllSuccess 2 c4w 2 (by decide) (by decide) (by decide)⟩

/-! ## Claim C5 — clip layout law -/

/-- Claim C5 (confirmed): for narration audio of duration D, the composed
clip has total duration D + 1, the narration starts at offset 1 (the first
time unit is silent), the narration track has duration D, and the slide
image is held for the clip's full duration. -/
theorem C5_theorem (D : Rat) :
    (composeSlideClip D).totalDuration = D + 1
    ∧ (composeSlideClip D).audio.start = 1
    ∧ (composeSlideClip D).audio.duration = D
    ∧ (composeSlideClip D).image.duration = (composeSlideClip D).totalDuration :=
  ⟨rfl, rfl, rfl, rfl⟩

/-! ## Claim C6 — hidden-slide renumbering -/

/-- Claim C6 (confirmed): starting from an output folder with no image and no
notes artifacts, both the export stage and the notes stage exclude hidden
slides and renumber the visible slides contiguously from 1 in deck order:
the j-th visible slide (0-based j) receives artifact index j+1, no artifact
exists outside 1..count, and the returned count is the number of visible
slides. -/
theorem C6_theorem (deck : List Slide) (w : World)
    (himg : ∀ k, w.image k = none) (htxt : ∀ k, w.text k = none) :
    ((export_slides_as_png deck w).1 = (visibleWithOrig deck 1).length)
    ∧ (∀ j p, (visibleWithOrig deck 1).get? j = some p → p.2.exportOk = true →
        ∃ m, ((export_slides_as_png deck w).2).image (j + 1) = some ⟨Content.png p.1, m⟩)
    ∧ (∀ k, k = 0 ∨ (visibleWithOrig deck 1).length < k →
        ((export_slides_as_png deck w).2).image k = none)
    ∧ (∀ j s, (visibleSlides deck).get? j = some s →
        ∃ m, (extract_speaker_notes deck w).text (j + 1) = some ⟨Content.txt s.notes, m⟩)
    ∧ (∀ k, k = 0 ∨ (visibleSlides deck).length < k →
        (extract_speaker_notes deck w).text k = none) := by
  have hcount : (export_slides_as_png deck w).1 = (visibleWithOrig deck 1).length := by
    show (exportLoop deck 1 0 w).1 = _
    rw [exportLoop_count deck 1 0 w]
    omega
  refine ⟨hcount, ?_, ?_, ?_, ?_⟩
  · intro j p hj he
    have := (exportLoop_image_at deck 1 0 w (fun k _ => himg k) j p hj).1 he
    rw [show (0 : Nat) + j + 1 = j + 1 from by omega] at this
    exact this
  · intro k hk
    rcases hk with hk | hk
    · subst hk
      show (exportLoop deck 1 0 w).2.image 0 = none
      rw [exportLoop_image_low deck 1 0 w 0 (Nat.le_refl 0)]
      exact himg 0
    · show (exportLoop deck 1 0 w).2.image k = none
      rw [exportLoop_image_high deck 1 0 w k (by omega)]
      exact himg k
  · intro j s hj
    have := notesLoop_text_write deck 0 w j s hj
      (Or.inl (by rw [show (0 : Nat) + j + 1 = j + 1 from by omega]; exact htxt (j + 1)))
    rw [show (0 : Nat) + j + 1 = j + 1 from by omega] at this
    exact this
  · intro k hk
    rcases hk with hk | hk
    · subst hk
      show (notesLoop deck 0 w).text 0 = none
      rw [notesLoop_text_low deck 0 w 0 (Nat.le_refl 0)]
      exact htxt 0
    · show (notesLoop deck 0 w).text k = none
      rw [notesLoop_text_high deck 0 w k (by omega)]
      exact htxt k

/-- Witness for C6: the deck [visible, hidden, visible, visible] yields
exactly artifact indices 1, 2, 3 for original slides 1, 3, 4 in both stages. -/
theorem C6_witness :
    ((∀ k, World.empty.image k = none) ∧ (∀ k, World.empty.text k = none))
    ∧ (export_slides_as_png c6deck World.empty).1 = 3
    ∧ (∃ m, ((export_slides_as_png c6deck World.empty).2).image 2 = some ⟨Content.png 3, m⟩)
    ∧ ((export_slides_as_png c6deck World.empty).2).image 4 = none
    ∧ (∃ m, (extract_speaker_notes c6deck World.empty).text 3 = some ⟨Content.txt 44, m⟩) := by
  have h := C6_theorem c6deck World.empty (fun _ => rfl) (fun _ => rfl)
  refine ⟨⟨fun _ => rfl, fun _ => rfl⟩, h.1.trans (by decide), ?_, ?_, ?_⟩
  · exact h.2.1 1 (3, ⟨some false, 33, true⟩) (by decide) (by decide)
  · exact h.2.2.1 4 (Or.inr (by decide))
  · exact h.2.2.2.1 2 ⟨none, 44, true⟩ (by decide)

/-! ## Claim C7 — absence of the TTS executable -/

/-- Claim C7, counterexample: one visible slide whose notes file exists and
whose audio file exists but is stale, with the TTS executable absent.
Contrary to the claim, later stages still run (the clip is encoded and the
join executed) and the process exits 0. -/
theorem C7_counterexample :
    c7run.2 = 0 ∧ Call.encodeClip 1 ∈ c7run.1.log ∧ Call.ffmpegJoin ∈ c7run.1.log := by
  decide

/-- Claim C7 (amended): when the TTS executable is absent, the synthesis
stage is abandoned (the `break` prevents any TTS invocation and leaves every
audio file untouched), but this is not a fatal stage failure: the pipeline
proceeds to the clip and concatenation stages, and when every slide still
has a usable audio file the run completes with exit code 0. -/
theorem C7_amended_theorem :
    (∀ (tts : Nat → TtsOutcome) (l : List Nat) (w : World),
        (∀ i, tts i = TtsOutcome.toolMissing) →
        (generateAudioLoop tts l w).log = w.log ∧
          ∀ j, (generateAudioLoop tts l w).audio j = w.audio j)
    ∧ (c7run.2 = 0 ∧ Call.ffmpegJoin ∈ c7run.1.log ∧ Call.tts 1 ∉ c7run.1.log) :=
  ⟨fun tts l w h => generateAudioLoop_toolMissing tts l w h, by decide⟩

/-- Witness for C7: the no-invocation part applied to the concrete scenario. -/
theorem C7_witness :
    (∀ i, ttsAllMissing i = TtsOutcome.toolMissing)
    ∧ ((generateAudioLoop ttsAllMissing [1] c7w).log = c7w.log
        ∧ ∀ j, (generateAudioLoop ttsAllMissing [1] c7w).audio j = c7w.audio j) :=
  ⟨fun _ => rfl, C7_amended_theorem.1 ttsAllMissing [1] c7w (fun _ => rfl)⟩

/-! ## Claim C8 — audio present, notes file absent -/

/-- Claim C8 (confirmed): when slide i's audio file exists but its notes file
does not, the freshness check's stat raises a file-not-found error that is
caught by the missing-tool handler and breaks the loop: the loop returns its
input world unchanged — no synthesis for slide i nor for any later slide,
rather than a per-slide skip. -/
theorem C8_theorem (tts : Nat → TtsOutcome) (i : Nat) (rest : List Nat) (w : World)
    (af : File) (ha : w.audio i = some af) (ht : w.text i = none) :
    generateAudioLoop tts (i :: rest) w = w := by
  simp only [generateAudioLoop]
  rw [show freshSkip w i = none from by simp [freshSkip, ha, ht]]

/-- Witness for C8: slide 1 has an audio file and no notes file; the loop
over slides 1, 2, 3 stops immediately and changes nothing. -/
theorem C8_witness :
    (c8w.audio 1 = some ⟨Content.wav 0, 3⟩ ∧ c8w.text 1 = none)
    ∧ generateAudioLoop ttsAllSuccess [1, 2, 3] c8w = c8w :=
  ⟨⟨by decide, rfl⟩, C8_theorem ttsAllSuccess 1 [2, 3] c8w ⟨Content.wav 0, 3⟩ (by decide) rfl⟩

/-! ## Claim C9 — export failure consumes its index -/

/-- Claim C9 (confirmed): the visible counter is incremented before the
export attempt, so a per-slide export failure still consumes its artifact
index: the j-th visible slide receives index j+1 regardless of any failures,
the failed slide's image file is absent, the returned count is unaffected,
and the independently counting notes stage still writes the notes file for
that same index. -/
theorem C9_theorem (deck : List Slide) (w : World)
    (himg : ∀ k, w.image k = none) (htxt : ∀ k, w.text k = none) :
    ((export_slides_as_png deck w).1 = (visibleWithOrig deck 1).length)
    ∧ (∀ j p, (visibleWithOrig deck 1).get? j = some p →
        (p.2.exportOk = false → ((export_slides_as_png deck w).2).image (j + 1) = none)
        ∧ (p.2.exportOk = true →
          ∃ m, ((export_slides_as_png deck w).2).image (j + 1) = some ⟨Content.png p.1, m⟩))
    ∧ (∀ j s, (visibleSlides deck).get? j = some s →
        ∃ m, (extract_speaker_notes deck w).text (j + 1) = some ⟨Content.txt s.notes, m⟩) := by
  have hcount : (export_slides_as_png deck w).1 = (visibleWithOrig deck 1).length := by
    show (exportLoop deck 1 0 w).1 = _
    rw [exportLoop_count deck 1 0 w]
    omega
  refine ⟨hcount, ?_, ?_⟩
  · intro j p hj
    have h := exportLoop_image_at deck 1 0 w (fun k _ => himg k) j p hj
    constructor
    · intro he
      have := h.2 he
      rw [show (0 : Nat) + j + 1 = j + 1 from by omega] at this
      exact this
    · intro he
      have := h.1 he
      rw [show (0 : Nat) + j + 1 = j + 1 from by omega] at this
      exact this
  · intro j s hj
    have := notesLoop_text_write deck 0 w j s hj
      (Or.inl (by rw [show (0 : Nat) + j + 1 = j + 1 from by omega]; exact htxt (j + 1)))
    rw [show (0 : Nat) + j + 1 = j + 1 from by omega] at this
    exact this

/-- Witness for C9: three visible slides with slide 2's export failing —
the count is still 3, image 2 is absent, image 3 still lands at index 3,
and the notes file for index 2 is still written. -/
theorem C9_witness :
    ((∀ k, World.empty.image k = none) ∧ (∀ k, World.empty.text k = none))
    ∧ (export_slides_as_png c9deck World.empty).1 = 3
    ∧ ((export_slides_as_png c9deck World.empty).2).image 2 = none
    ∧ (∃ m, ((export_slides_as_png c9deck World.empty).2).image 3 = some ⟨Content.png 3, m⟩)
    ∧ (∃ m, (extract_speaker_notes c9deck World.empty).text 2 = some ⟨Content.txt 2, m⟩) := by
  have h := C9_theorem c9deck World.empty (fun _ => rfl) (fun _ => rfl)
  refine ⟨⟨fun _ => rfl, fun _ => rfl⟩, h.1.trans (by decide), ?_, ?_, ?_⟩
  · exact (h.2.1 1 (2, ⟨some false, 2, false⟩) (by decide)).1 (by decide)
  · exact (h.2.1 2 (3, ⟨some false, 3, true⟩) (by decide)).2 (by decide)
  · exact h.2.2 1 ⟨some false, 2, false⟩ (by decide)

/-! ## Claim C10 — manifest deletion precedes the return-code check -/

/-- Claim C10 (confirmed): the concatenator deletes its generated manifest
before inspecting the join's return code, so whether the join succeeds
(rc = 0) or fails (the RuntimeError path, success flag false), the manifest
no longer exists in the resulting world. -/
theorem C10_theorem (rc : Nat) (clips : List Nat) (w : World) :
    ((concatenate_clips rc clips w).1).manifest = none
    ∧ (concatenate_clips rc clips w).2 = (rc == 0) :=
  ⟨rfl, rfl⟩
